import Mathlib

/-!
Verification development for the telegram-outage-bot repository.

The development shallowly embeds the schedule change-detection and
notification-timing core of the bot:

* `src/utils/dateUtils.js` — time and date parsing (`parseTimeToMinutes`,
  `parseDateString`, `isTodayOrFuture`, `isEarlyMorning`);
* `src/services/scheduleService.js` — canonicalization and change detection
  (`filterFutureDays`, `extractOutageDataOnly`, `processQueueSchedule`,
  `processMultipleQueues`, `getChangedQueues`, `extractStartTime`,
  `extractEndTime`);
* `src/services/notificationService.js` — notified-event bookkeeping
  (`markEventAsNotified`, `isEventNotified`);
* `src/utils/helpers.js` — `generateEventId`, `hashSchedule`;
* `src/scheduler.js` — the per-period firing logic of
  `checkAndNotifyUpcomingOutages` and `checkAndNotifyPowerReturns`.

Modelling conventions:

* JavaScript values that may be `undefined`/`null` are modelled with
  `Option`; the empty string is kept explicit because the code tests
  truthiness (`!s`) which is false for `""` as well.
* `Number(s)` is modelled by `jsNumber`, covering trimmed decimal integer
  strings, the empty string (which coerces to `0` in JS) and sign prefixes;
  other numeric spellings (hex, fractions, exponents) are conservatively
  mapped to NaN (`none`).  No statement below depends on those spellings.
* SHA-256 over `JSON.stringify` of a canonicalized schedule is modelled by
  the canonicalized value itself (`hashSchedule` is the identity): the
  digest of a deterministic serialization is injective up to hash
  collisions, and every comparison in the code is between two such digests.
* The Mongo persistence layer is modelled by explicit state passing: the
  per-queue cache is a value of type `Option CacheEntry`, the per-user
  notified set is a `List String`.
-/

/-- Truthiness of an optional string, as JavaScript `if (s)`:
`undefined`/`null` and `""` are falsy. -/
def truthyStr : Option String → Bool
  | none => false
  | some s => s ≠ ""

/-- ASCII whitespace, the relevant subset of what `Number()` trims. -/
def isWsChar (c : Char) : Bool :=
  c = ' ' ∨ c = '\t' ∨ c = '\n' ∨ c = '\r'

/-- Value of a list of decimal digits. -/
def digitsVal (cs : List Char) : Nat :=
  cs.foldl (fun acc c => acc * 10 + (c.toNat - '0'.toNat)) 0

/-- Model of the JavaScript `Number()` coercion on strings, restricted to the
spellings that can occur in this code base: surrounding whitespace is
trimmed, the empty string coerces to `0`, an optional sign followed by
decimal digits is read as an integer.  Anything else is NaN (`none`).  -/
def jsNumber (s : List Char) : Option Int :=
  let t := ((s.dropWhile isWsChar).reverse.dropWhile isWsChar).reverse
  match t with
  | [] => some 0
  | '-' :: rest => if rest ≠ [] ∧ rest.all Char.isDigit then some (-(digitsVal rest : Int)) else none
  | '+' :: rest => if rest ≠ [] ∧ rest.all Char.isDigit then some (digitsVal rest : Int) else none
  | _ => if t.all Char.isDigit then some (digitsVal t : Int) else none

/-- `src/utils/dateUtils.js` `parseTimeToMinutes(timeStr)`: `null` for a
missing or empty string, split on `":"`, exactly two parts, both parts
numbers, hour in 0..23 and minute in 0..59; result is minutes since
midnight. -/
def parseTimeToMinutes (timeStr : Option String) : Option Int :=
  match timeStr with
  | none => none
  | some s =>
    if s = "" then none
    else
      let parts := s.data.splitOn ':'
      if parts.length ≠ 2 then none
      else
        match jsNumber (parts.getD 0 []), jsNumber (parts.getD 1 []) with
        | some hour, some minute =>
          if hour < 0 ∨ hour > 23 ∨ minute < 0 ∨ minute > 59 then none
          else some (hour * 60 + minute)
        | _, _ => none

/-- `src/utils/dateUtils.js` `isEarlyMorning(minutes, cutoff)`. -/
def isEarlyMorning (minutes cutoff : Int) : Bool :=
  minutes ≤ cutoff

/-- Day number of a civil date (month 1..12), Hinnant's `days_from_civil`;
this is (up to an affine shift) what a JS `Date` at local midnight compares
by. -/
def daysFromCivil (y m d : Int) : Int :=
  let y' := if m ≤ 2 then y - 1 else y
  let era := Int.fdiv (if 0 ≤ y' then y' else y' - 399) 400
  let yoe := y' - era * 400
  let doy := Int.fdiv (153 * (m + (if m > 2 then -3 else 9)) + 2) 5 + d - 1
  let doe := yoe * 365 + Int.fdiv yoe 4 - Int.fdiv yoe 100 + doy
  era * 146097 + doe - 719468

/-- Day number of `new Date(year, month, date)` (JS `month` is 0-based and
both month and date are normalized by carrying); years 0..99 are mapped to
1900..1999 as the JS `Date` constructor does. -/
def jsMakeDay (y m d : Int) : Int :=
  let y0 := if 0 ≤ y ∧ y ≤ 99 then y + 1900 else y
  let y2 := y0 + Int.fdiv m 12
  let m2 := Int.emod m 12
  daysFromCivil y2 (m2 + 1) d

/-- The current local civil date, the only part of `new Date()` the change
detector's date filter consumes. -/
structure Date3 where
  year : Int
  month : Int
  day : Int
deriving DecidableEq, Repr

/-- `src/utils/dateUtils.js` `parseDateString(dateStr)`: split a
`"DD.MM.YYYY"` string on `"."`, coerce the first three parts with
`Number`, require all three truthy (non-zero, non-NaN).  Returns the
`(day, month, year)` triple the code feeds to `new Date(year, month-1,
day)`. -/
def parseDateString (dateStr : Option String) : Option (Int × Int × Int) :=
  match dateStr with
  | none => none
  | some s =>
    if s = "" then none
    else
      let nums := (s.data.splitOn '.').map jsNumber
      match nums.getD 0 none, nums.getD 1 none, nums.getD 2 none with
      | some day, some month, some year =>
        if day ≠ 0 ∧ month ≠ 0 ∧ year ≠ 0 then some (day, month, year) else none
      | _, _, _ => none

/-- `src/utils/dateUtils.js` `isTodayOrFuture(dateStr)`: parse the date and
compare the resulting local-midnight date against today's local midnight. -/
def isTodayOrFuture (today : Date3) (dateStr : Option String) : Bool :=
  match parseDateString dateStr with
  | none => false
  | some (day, month, year) =>
    jsMakeDay year (month - 1) day ≥ jsMakeDay today.year (today.month - 1) today.day

/-- One outage period as delivered by the upstream API.  `fromT`/`toT` model
the JS fields `from`/`to` (`from` is a Lean keyword); `meta` holds any
further fields of the raw JSON object, which the canonicalizer strips. -/
structure Period where
  fromT : Option String := none
  toT : Option String := none
  shutdownHours : Option String := none
  status : Option Int := none
  eventDate : Option String := none
  meta : List (String × String) := []
deriving DecidableEq, Repr

/-- The value stored under one queue key of a day's `queues` object: an
array of periods, or any non-array JSON value (kept verbatim by the
canonicalizer), represented by its serialized form. -/
inductive PeriodsVal where
  | arr : List Period → PeriodsVal
  | other : String → PeriodsVal
deriving DecidableEq, Repr

/-- One `DaySchedule` object: optional `eventDate`, optional `queues`
mapping (association list in JS insertion order), and any further metadata
fields such as `scheduleApprovedSince` in `meta`. -/
structure Day where
  eventDate : Option String := none
  queues : Option (List (String × PeriodsVal)) := none
  meta : List (String × String) := []
deriving DecidableEq, Repr

/-- A fetched schedule: the new API format (array of days) or any non-array
JSON value (e.g. the legacy `{data: ...}` object), kept opaque because the
canonicalizer passes it through unchanged. -/
inductive Sched where
  | arr : List Day → Sched
  | other : String → Sched
deriving DecidableEq, Repr

/-- `src/models/ScheduleCache.js`: per-queue cache document.  `updatedAt`
is an abstract timestamp. -/
structure CacheEntry where
  hash : Option Sched := none
  rawSchedule : Option Sched := none
  updatedAt : Nat := 0
deriving DecidableEq, Repr

/-- The result record built by `processQueueSchedule`. -/
structure QueueResult where
  queue : String
  schedule : Option Sched := none
  hash : Option Sched := none
  changed : Bool := false
  isFirstTime : Bool := false
  error : Option String := none
deriving DecidableEq, Repr

/-- The filter predicate of `filterFutureDays`: a day without a truthy
`eventDate` is kept, otherwise it is kept iff `isTodayOrFuture`. -/
def dayKeep (today : Date3) (day : Day) : Bool :=
  if truthyStr day.eventDate then isTodayOrFuture today day.eventDate else true

/-- `src/services/scheduleService.js` `filterFutureDays(schedule)`: filter an
array schedule to today-or-future days, pass any non-array through. -/
def filterFutureDays (today : Date3) : Sched → Sched
  | Sched.arr l => Sched.arr (l.filter (dayKeep today))
  | Sched.other v => Sched.other v

/-- The per-period projection of `extractOutageDataOnly`: keep only `from`,
`to`, `shutdownHours`, `status`. -/
def stripPeriod (p : Period) : Period :=
  { fromT := p.fromT, toT := p.toT, shutdownHours := p.shutdownHours, status := p.status }

/-- Strip one `queues` entry value: map over an array of periods, keep a
non-array value verbatim. -/
def stripPVal : PeriodsVal → PeriodsVal
  | PeriodsVal.arr ps => PeriodsVal.arr (ps.map stripPeriod)
  | PeriodsVal.other v => PeriodsVal.other v

/-- The per-day step of `extractOutageDataOnly`: a day without a truthy
`eventDate` or without a `queues` field is returned verbatim (metadata
included); otherwise only `eventDate` and the stripped `queues` survive. -/
def cleanDay (day : Day) : Day :=
  if ¬ truthyStr day.eventDate ∨ day.queues = none then day
  else
    { eventDate := day.eventDate,
      queues := day.queues.map (List.map (fun kv => (kv.1, stripPVal kv.2))) }

/-- `src/services/scheduleService.js` `extractOutageDataOnly(schedule)`. -/
def extractOutageDataOnly : Sched → Sched
  | Sched.arr l => Sched.arr (l.map cleanDay)
  | Sched.other v => Sched.other v

/-- `src/utils/helpers.js` `hashSchedule(schedule)`: SHA-256 of
`JSON.stringify(schedule)`.  Modelled as the canonicalized value itself —
the digest of a deterministic serialization is injective up to hash
collisions, and the code only ever compares two such digests. -/
def hashSchedule (s : Sched) : Sched := s

/-- `src/services/scheduleService.js` `processQueueSchedule(queue)`, with its
effects made explicit: `today`, `hour`, `minute` come from `new Date()`,
`now` is the abstract write timestamp, `fetched` is the (already awaited)
result of `fetchSchedule(queue)` with `none` for any falsy outcome, and
`cache` is the current `ScheduleCache` document for the queue.  Returns the
result record together with the cache entry after the call's writes. -/
def processQueueSchedule (today : Date3) (hour minute : Nat) (now : Nat) (queue : String)
    (fetched : Option Sched) (cache : Option CacheEntry) : QueueResult × Option CacheEntry :=
  let base : QueueResult := { queue := queue }
  match fetched with
  | none => ({ base with error := some "Failed to fetch" }, cache)
  | some newSchedule =>
    let filteredSchedule := filterFutureDays today newSchedule
    if filteredSchedule = Sched.arr [] then
      ({ base with error := some "No future days" }, cache)
    else
      let newHash := hashSchedule (extractOutageDataOnly filteredSchedule)
      -- the tentatively-CHANGED / first-time tail of the function
      let proceed : QueueResult × Option CacheEntry :=
        let isFirstTime := cache.isNone
        let isMidnightWindow : Bool := hour = 0 ∧ minute < 20
        let newCache : Option CacheEntry :=
          some { hash := some newHash, rawSchedule := some newSchedule, updatedAt := now }
        if isMidnightWindow ∧ isFirstTime = false then
          ({ base with schedule := some newSchedule, hash := some newHash,
                       changed := false, isFirstTime := false }, newCache)
        else
          ({ base with schedule := some newSchedule, hash := some newHash,
                       changed := !isFirstTime, isFirstTime := isFirstTime }, newCache)
      match cache with
      | some ce =>
        match ce.rawSchedule with
        | some raw =>
          -- recompute the old hash from the cached raw schedule at the current date
          let oldHash := hashSchedule (extractOutageDataOnly (filterFutureDays today raw))
          if oldHash = newHash then
            ({ base with schedule := some newSchedule, hash := some newHash, changed := false },
             some { hash := some newHash, rawSchedule := some newSchedule, updatedAt := now })
          else proceed
        | none => proceed
      | none => proceed

/-- `src/services/scheduleService.js` `processMultipleQueues(queues)`:
process queues in order, threading the cache store (modelled as a map from
queue id to cache entry) through the per-queue writes. -/
def processMultipleQueues (today : Date3) (hour minute : Nat) (now : Nat)
    (fetch : String → Option Sched) (queues : List String)
    (caches : String → Option CacheEntry) :
    List QueueResult × (String → Option CacheEntry) :=
  match queues with
  | [] => ([], caches)
  | q :: rest =>
    let rc := processQueueSchedule today hour minute now q (fetch q) (caches q)
    let caches' := fun q' => if q' = q then rc.2 else caches q'
    let tail := processMultipleQueues today hour minute now fetch rest caches'
    (rc.1 :: tail.1, tail.2)

/-- `src/services/scheduleService.js` `getChangedQueues(results)`: queues
whose result is changed and not a first-time initialization. -/
def getChangedQueues (results : List QueueResult) : List String :=
  (results.filter (fun r => r.changed ∧ r.isFirstTime = false)).map (fun r => r.queue)

/-- `src/utils/helpers.js` `generateEventId(queue, time, date = '')`. -/
def generateEventId (queue time date : String) : String :=
  if date ≠ "" then queue ++ "_" ++ time ++ "_" ++ date
  else queue ++ "_" ++ time

/-- `src/services/notificationService.js` `isEventNotified(user, eventId)`. -/
def isEventNotified (notifiedEvents : List String) (eventId : String) : Bool :=
  notifiedEvents.contains eventId

/-- `src/services/notificationService.js` `markEventAsNotified(user,
eventId)`: append if absent. -/
def markEventAsNotified (notifiedEvents : List String) (eventId : String) : List String :=
  if notifiedEvents.contains eventId then notifiedEvents else notifiedEvents ++ [eventId]

/-- The `^(\d{2}:\d{2})` match of `extractStartTime`: the first five
characters are `DD:DD`; returns the matched prefix. -/
def hhmmAtStart (h : String) : Option String :=
  match h.data with
  | a :: b :: c :: d :: e :: _ =>
    if a.isDigit ∧ b.isDigit ∧ c = ':' ∧ d.isDigit ∧ e.isDigit then
      some (String.mk [a, b, c, d, e])
    else none
  | _ => none

/-- The `-(\d{2}:\d{2})$` match of `extractEndTime`: the last six characters
are `-DD:DD`; returns the captured `DD:DD`. -/
def hhmmAtEndAfterDash (h : String) : Option String :=
  match h.data.reverse with
  | e :: d :: c :: b :: a :: dash :: _ =>
    if dash = '-' ∧ a.isDigit ∧ b.isDigit ∧ c = ':' ∧ d.isDigit ∧ e.isDigit then
      some (String.mk [a, b, c, d, e])
    else none
  | _ => none

/-- `src/services/scheduleService.js` `extractStartTime(period)`: the truthy
`from` field, else the `HH:MM` prefix of `shutdownHours`, else `null`. -/
def extractStartTime (p : Period) : Option String :=
  match p.fromT with
  | some s =>
    if s ≠ "" then some s
    else match p.shutdownHours with
         | some h => hhmmAtStart h
         | none => none
  | none =>
    match p.shutdownHours with
    | some h => hhmmAtStart h
    | none => none

/-- `src/services/scheduleService.js` `extractEndTime(period)`: the truthy
`to` field, else the `HH:MM` captured before the end of `shutdownHours`,
else `null`. -/
def extractEndTime (p : Period) : Option String :=
  match p.toT with
  | some s =>
    if s ≠ "" then some s
    else match p.shutdownHours with
         | some h => hhmmAtEndAfterDash h
         | none => none
  | none =>
    match p.shutdownHours with
    | some h => hhmmAtEndAfterDash h
    | none => none

/-- The firing tail shared by both notification cycles
(`src/scheduler.js` lines 201-219 and 326-343): skip if the event id is
already in `notifiedEvents`; otherwise attempt the send, and on success
mark the event as notified.  Returns the new notified set together with the
list of event ids sent (empty or a singleton). -/
def fireGate (notifiedEvents : List String) (eventId : String) (sendOk : Bool) :
    List String × List String :=
  if isEventNotified notifiedEvents eventId then (notifiedEvents, [])
  else if sendOk then (markEventAsNotified notifiedEvents eventId, [eventId])
  else (notifiedEvents, [])

/-- The per-period body of `checkAndNotifyUpcomingOutages`
(`src/scheduler.js` lines 184-219): extract and parse the start time
(skipping the period when either fails), fire iff the exact difference
`periodMinutes - currentMinutes` is one of the user's timers and the event
has not been notified. -/
def upcomingStep (timers : List Int) (currentMinutes : Int) (notifiedEvents : List String)
    (queue : String) (p : Period) (sendOk : Bool) : List String × List String :=
  match extractStartTime p with
  | none => (notifiedEvents, [])
  | some startTime =>
    match parseTimeToMinutes (some startTime) with
    | none => (notifiedEvents, [])
    | some periodMinutes =>
      let diffMinutes := periodMinutes - currentMinutes
      if timers.contains diffMinutes then
        fireGate notifiedEvents (generateEventId queue startTime (p.eventDate.getD "")) sendOk
      else (notifiedEvents, [])

/-- The `shouldNotify` computation of `checkAndNotifyPowerReturns`
(`src/scheduler.js` lines 308-324): both the `isEarlyMorning(endMinutes,
60)` branch and the other branch test
`0 <= currentMinutes - endMinutes <= TIMING.POWER_RETURN_CHECK_WINDOW`
with the window fixed at 2 minutes. -/
def shouldNotifyPowerReturn (currentMinutes endMinutes : Int) : Bool :=
  if isEarlyMorning endMinutes 60 then
    let diffMinutes := currentMinutes - endMinutes
    decide (diffMinutes ≥ 0 ∧ diffMinutes ≤ 2)
  else
    let diffMinutes := currentMinutes - endMinutes
    decide (diffMinutes ≥ 0 ∧ diffMinutes ≤ 2)

/-- The per-period body of `checkAndNotifyPowerReturns`
(`src/scheduler.js` lines 296-343): extract and parse the end time
(skipping the period when either fails), fire iff `shouldNotify` holds and
the `power_return_`-prefixed event has not been notified. -/
def powerReturnStep (currentMinutes : Int) (notifiedEvents : List String)
    (queue : String) (p : Period) (sendOk : Bool) : List String × List String :=
  match extractEndTime p with
  | none => (notifiedEvents, [])
  | some endTime =>
    match parseTimeToMinutes (some endTime) with
    | none => (notifiedEvents, [])
    | some endMinutes =>
      if shouldNotifyPowerReturn currentMinutes endMinutes then
        fireGate notifiedEvents
          ("power_return_" ++ generateEventId queue endTime (p.eventDate.getD "")) sendOk
      else (notifiedEvents, [])

/-- One notification check against one period, inside either cycle: the
upcoming-outage cycle carries the user's timers and the current minutes,
the power-return cycle carries the current minutes; both carry the queue,
the (date-tagged) period and the transport outcome of the send. -/
inductive Check where
  | upcoming : List Int → Int → String → Period → Bool → Check
  | powerReturn : Int → String → Period → Bool → Check
deriving Repr

/-- Run one check against the user's notified-event set. -/
def runCheck (notifiedEvents : List String) : Check → List String × List String
  | Check.upcoming timers cur q p ok => upcomingStep timers cur notifiedEvents q p ok
  | Check.powerReturn cur q p ok => powerReturnStep cur notifiedEvents q p ok

/-- Run a whole trace of checks — arbitrarily many interleaved
upcoming-outage and power-return cycle iterations — threading the user's
notified-event set, collecting every event id sent. -/
def runTrace (notifiedEvents : List String) : List Check → List String × List String
  | [] => (notifiedEvents, [])
  | c :: cs =>
    let step := runCheck notifiedEvents c
    let rest := runTrace step.1 cs
    (rest.1, step.2 ++ rest.2)

/-- Modelled from the claim's words, for comparison with the source's
`parseTimeToMinutes`: a well-formed `"HH:MM"` string — two digits, a colon,
two digits — whose hour is 0–23 and whose minute is 0–59. -/
def wellFormedHHMM (t : String) : Bool :=
  match t.data with
  | [a, b, c, d, e] =>
    a.isDigit ∧ b.isDigit ∧ c = ':' ∧ d.isDigit ∧ e.isDigit ∧
      digitsVal [a, b] ≤ 23 ∧ digitsVal [d, e] ≤ 59
  | _ => false

/-- Agreement of two raw periods on exactly the four fields the
canonicalizer keeps; any other (metadata) field may differ. -/
def samePeriodData (p r : Period) : Bool :=
  p.fromT = r.fromT ∧ p.toT = r.toT ∧ p.shutdownHours = r.shutdownHours ∧ p.status = r.status

/-- Pairwise `samePeriodData` on equally long period lists. -/
def samePeriodList : List Period → List Period → Bool
  | [], [] => true
  | p :: ps, r :: rs => samePeriodData p r && samePeriodList ps rs
  | _, _ => false

/-- Agreement of two `queues` entry values up to period metadata. -/
def samePVal : PeriodsVal → PeriodsVal → Bool
  | PeriodsVal.arr ps, PeriodsVal.arr rs => samePeriodList ps rs
  | PeriodsVal.other a, PeriodsVal.other b => a = b
  | _, _ => false

/-- Agreement of two `queues` association lists: same keys in the same
order, values agreeing up to period metadata. -/
def sameQueueList : List (String × PeriodsVal) → List (String × PeriodsVal) → Bool
  | [], [] => true
  | kv1 :: t1, kv2 :: t2 =>
    (kv1.1 = kv2.1 : Bool) && samePVal kv1.2 kv2.2 && sameQueueList t1 t2
  | _, _ => false

/-- Agreement of two days on `eventDate` and the `queues` structure; any
day-level metadata field (e.g. `scheduleApprovedSince`) may differ. -/
def sameDayData (d e : Day) : Bool :=
  (d.eventDate = e.eventDate : Bool) &&
    match d.queues, e.queues with
    | some qs, some rs => sameQueueList qs rs
    | none, none => true
    | _, _ => false

/-- Pairwise `sameDayData` on equally long day lists. -/
def sameDayList : List Day → List Day → Bool
  | [], [] => true
  | d :: ds, e :: es => sameDayData d e && sameDayList ds es
  | _, _ => false

/-- Two fetched schedules that differ only in fields outside `eventDate` and
the per-period `from`/`to`/`shutdownHours`/`status` — the claim's
"differ only in display-only metadata" relation. -/
def sameSchedData : Sched → Sched → Bool
  | Sched.arr l1, Sched.arr l2 => sameDayList l1 l2
  | Sched.other a, Sched.other b => a = b
  | _, _ => false

/-- A day the stripping step actually strips: truthy `eventDate` and a
present `queues` field (otherwise `extractOutageDataOnly` copies the day —
metadata included — verbatim). -/
def dayWellFormed (d : Day) : Bool :=
  truthyStr d.eventDate && d.queues.isSome

/-- Every day of an array schedule is well-formed (non-array schedules have
no days to strip). -/
def schedWellFormed : Sched → Bool
  | Sched.arr l => l.all dayWellFormed
  | Sched.other _ => true

lemma isEventNotified_iff (s : List String) (e : String) :
    isEventNotified s e = true ↔ e ∈ s :=
  List.elem_iff

lemma isEventNotified_false (s : List String) (e : String) (h : e ∉ s) :
    isEventNotified s e = false := by
  cases hc : isEventNotified s e
  · rfl
  · exact absurd ((isEventNotified_iff s e).mp hc) h

lemma markEventAsNotified_of_not_mem (s : List String) (e : String) (h : e ∉ s) :
    markEventAsNotified s e = s ++ [e] := by
  unfold markEventAsNotified
  rw [show s.contains e = false from isEventNotified_false s e h]
  rfl

lemma fireGate_spec (s : List String) (e : String) (ok : Bool) :
    fireGate s e ok = (s, []) ∨ (e ∉ s ∧ fireGate s e ok = (s ++ [e], [e])) := by
  unfold fireGate
  by_cases h : e ∈ s
  · left
    rw [if_pos ((isEventNotified_iff s e).mpr h)]
  · rw [isEventNotified_false s e h]
    cases ok
    · left; rfl
    · right
      refine ⟨h, ?_⟩
      simp only [Bool.false_eq_true, if_false, if_true]
      rw [markEventAsNotified_of_not_mem s e h]

lemma runCheck_spec (s : List String) (c : Check) :
    runCheck s c = (s, []) ∨ ∃ e, e ∉ s ∧ runCheck s c = (s ++ [e], [e]) := by
  cases c with
  | upcoming timers cur q p ok =>
    simp only [runCheck]
    unfold upcomingStep
    cases h1 : extractStartTime p with
    | none => left; rfl
    | some t =>
      cases h2 : parseTimeToMinutes (some t) with
      | none => left; simp [h2]
      | some m =>
        simp only [h2]
        by_cases hd : timers.contains (m - cur)
        · simp only [hd, if_true]
          rcases fireGate_spec s (generateEventId q t (p.eventDate.getD "")) ok with h | ⟨hm, h⟩
          · left; exact h
          · right; exact ⟨_, hm, h⟩
        · left; rw [if_neg hd]
  | powerReturn cur q p ok =>
    simp only [runCheck]
    unfold powerReturnStep
    cases h1 : extractEndTime p with
    | none => left; rfl
    | some t =>
      cases h2 : parseTimeToMinutes (some t) with
      | none => left; simp [h2]
      | some m =>
        simp only [h2]
        by_cases hd : shouldNotifyPowerReturn cur m
        · simp only [hd, if_true]
          rcases fireGate_spec s ("power_return_" ++ generateEventId q t (p.eventDate.getD "")) ok
            with h | ⟨hm, h⟩
          · left; exact h
          · right; exact ⟨_, hm, h⟩
        · left; rw [if_neg hd]

lemma runTrace_count_of_mem (e : String) (s : List String) (tr : List Check)
    (h : e ∈ s) : ((runTrace s tr).2.count e) = 0 := by
  induction tr generalizing s with
  | nil => simp [runTrace]
  | cons c cs ih =>
    rcases runCheck_spec s c with hc | ⟨x, hx, hc⟩
    · simp only [runTrace, hc]
      simpa using ih s h
    · simp only [runTrace, hc, List.count_append]
      have hxe : x ≠ e := fun hxe => hx (hxe ▸ h)
      have h1 : List.count e [x] = 0 := by
        simp [List.count_singleton, hxe]
      rw [h1]
      simpa using ih (s ++ [x]) (List.mem_append_left _ h)

lemma fireGate_sent_iff (s : List String) (e : String) (ok : Bool) :
    (fireGate s e ok).2 ≠ [] ↔ isEventNotified s e = false ∧ ok = true := by
  unfold fireGate
  cases hn : isEventNotified s e <;> cases ok <;> simp

lemma shouldNotifyPowerReturn_eq (cur em : Int) :
    shouldNotifyPowerReturn cur em = decide (cur - em ≥ 0 ∧ cur - em ≤ 2) := by
  unfold shouldNotifyPowerReturn
  split <;> rfl

/-- **C1.** At-most-once firing: for every subscriber state and every fixed
event identifier not yet notified, across an arbitrary interleaving of
upcoming-outage and power-return cycle iterations, at most one notification
is ever sent for that identifier — a send is attempted only when the
identifier is absent from `notifiedEvents`, and a successful send adds it. -/
theorem at_most_once_firing (e : String) (s : List String) (tr : List Check)
    (h : e ∉ s) : ((runTrace s tr).2.count e) ≤ 1 := by
  induction tr generalizing s with
  | nil => simp [runTrace]
  | cons c cs ih =>
    rcases runCheck_spec s c with hc | ⟨x, hx, hc⟩
    · simp only [runTrace, hc]
      simpa using ih s h
    · simp only [runTrace, hc]
      by_cases hxe : x = e
      · subst hxe
        have h0 : ((runTrace (s ++ [x]) cs).2.count x) = 0 :=
          runTrace_count_of_mem x (s ++ [x]) cs (by simp)
        simp [List.count_append, h0]
      · have h2 : e ∉ s ++ [x] := by
          simp only [List.mem_append, List.mem_singleton]
          rintro (hs | hs)
          · exact h hs
          · exact hxe hs.symm
        have := ih (s ++ [x]) h2
        simp only [List.count_append, List.count_singleton]
        simpa [hxe] using this

/-- Witness for C1: a subscriber starting with an empty notified set, the
same due period checked in two consecutive upcoming-outage cycles with the
send succeeding; the event id is counted at most once. -/
theorem at_most_once_firing_witness :
    ("1.1_10:10_11.10.2026" ∉ ([] : List String)) ∧
    ((runTrace []
        [Check.upcoming [5, 10, 15, 30] 600 "1.1"
           ⟨some "10:10", none, none, none, some "11.10.2026", []⟩ true,
         Check.upcoming [5, 10, 15, 30] 600 "1.1"
           ⟨some "10:10", none, none, none, some "11.10.2026", []⟩ true]).2.count
       "1.1_10:10_11.10.2026") ≤ 1 :=
  ⟨by decide, at_most_once_firing "1.1_10:10_11.10.2026" [] _ (by decide)⟩

/-- **C4.** Lead-time exact match: the upcoming-outage cycle fires for a
period only when `periodMinutes - currentMinutes` is exactly one of the
subscriber's timers; with timers `{5,10,15,30}` a difference of 10 fires
exactly one notification and a difference of 11 fires none. -/
theorem leadTime_exact_match :
    (∀ (timers : List Int) (cur : Int) (s : List String) (queue : String) (p : Period) (ok : Bool),
       (upcomingStep timers cur s queue p ok).2 ≠ [] →
       ∃ t m, extractStartTime p = some t ∧ parseTimeToMinutes (some t) = some m ∧
         (m - cur) ∈ timers) ∧
    (∀ (cur : Int) (s : List String) (queue : String) (p : Period) (t : String) (m : Int),
       extractStartTime p = some t → parseTimeToMinutes (some t) = some m →
       m - cur = 10 →
       isEventNotified s (generateEventId queue t (p.eventDate.getD "")) = false →
       ((upcomingStep [5, 10, 15, 30] cur s queue p true).2).length = 1) ∧
    (∀ (cur : Int) (s : List String) (queue : String) (p : Period) (t : String) (m : Int) (ok : Bool),
       extractStartTime p = some t → parseTimeToMinutes (some t) = some m →
       m - cur = 11 →
       (upcomingStep [5, 10, 15, 30] cur s queue p ok).2 = []) := by
  refine ⟨?_, ?_, ?_⟩
  · intro timers cur s queue p ok hne
    unfold upcomingStep at hne
    cases h1 : extractStartTime p with
    | none => rw [h1] at hne; exact absurd rfl hne
    | some t =>
      rw [h1] at hne
      cases h2 : parseTimeToMinutes (some t) with
      | none => simp [h2] at hne
      | some m =>
        simp only [h2] at hne
        by_cases hd : timers.contains (m - cur) = true
        · exact ⟨t, m, rfl, h2, List.elem_iff.mp hd⟩
        · rw [if_neg hd] at hne
          exact absurd rfl hne
  · intro cur s queue p t m h1 h2 hdiff hnot
    unfold upcomingStep
    rw [h1]
    simp only [h2, hdiff]
    rw [if_pos (by decide)]
    unfold fireGate
    rw [hnot]
    simp
  · intro cur s queue p t m ok h1 h2 hdiff
    unfold upcomingStep
    rw [h1]
    simp only [h2, hdiff]
    rw [if_neg (by decide)]

/-- Witness for C4: start `10:10` at current time `10:00` (difference 10)
fires exactly once; start `10:11` (difference 11) fires nothing. -/
theorem leadTime_exact_match_witness :
    ((upcomingStep [5, 10, 15, 30] 600 [] "1.1"
        ⟨some "10:10", none, none, none, some "11.10.2026", []⟩ true).2).length = 1 ∧
    (upcomingStep [5, 10, 15, 30] 600 [] "1.1"
        ⟨some "10:11", none, none, none, some "11.10.2026", []⟩ true).2 = [] :=
  ⟨leadTime_exact_match.2.1 600 [] "1.1" _ "10:10" 610 (by decide) (by decide) (by decide)
     (by decide),
   leadTime_exact_match.2.2 600 [] "1.1" _ "10:11" 611 true (by decide) (by decide) (by decide)⟩

/-- **C5.** Power-return fire condition: the `shouldNotify` decision is
exactly `0 ≤ currentMinutes - endMinutes ≤ 2` — identical in the
early-morning (`endMinutes ≤ 60`) branch and in the other branch — and the
cycle sends for a period with a parseable end time iff that window holds,
the prefixed event id is unnotified, and the transport send succeeds. -/
theorem powerReturn_fire_window :
    (∀ cur em : Int, shouldNotifyPowerReturn cur em = decide (cur - em ≥ 0 ∧ cur - em ≤ 2)) ∧
    (∀ (cur : Int) (s : List String) (queue : String) (p : Period) (ok : Bool)
       (t : String) (em : Int),
       extractEndTime p = some t → parseTimeToMinutes (some t) = some em →
       ((powerReturnStep cur s queue p ok).2 ≠ [] ↔
         (cur - em ≥ 0 ∧ cur - em ≤ 2) ∧
         isEventNotified s ("power_return_" ++ generateEventId queue t (p.eventDate.getD ""))
           = false ∧
         ok = true)) := by
  refine ⟨shouldNotifyPowerReturn_eq, ?_⟩
  intro cur s queue p ok t em h1 h2
  unfold powerReturnStep
  rw [h1]
  simp only [h2]
  rw [shouldNotifyPowerReturn_eq]
  by_cases hw : cur - em ≥ 0 ∧ cur - em ≤ 2
  · rw [if_pos (by simpa using hw)]
    rw [fireGate_sent_iff]
    constructor
    · exact fun hc => ⟨hw, hc⟩
    · exact fun hc => hc.2
  · rw [if_neg (by simpa using hw)]
    constructor
    · exact fun hc => absurd rfl hc
    · exact fun hc => absurd hc.1 hw

/-- Witness for C5: an outage ending at `01:00`: at `01:02` (difference 2)
the cycle sends, at `01:03` and at `00:59` it does not. -/
theorem powerReturn_fire_window_witness :
    (powerReturnStep 62 [] "1.1"
       ⟨none, some "01:00", none, none, some "11.10.2026", []⟩ true).2 ≠ [] ∧
    (powerReturnStep 63 [] "1.1"
       ⟨none, some "01:00", none, none, some "11.10.2026", []⟩ true).2 = [] ∧
    (powerReturnStep 59 [] "1.1"
       ⟨none, some "01:00", none, none, some "11.10.2026", []⟩ true).2 = [] := by
  have h2 := powerReturn_fire_window.2 62 [] "1.1"
    ⟨none, some "01:00", none, none, some "11.10.2026", []⟩ true "01:00" 60
    (by decide) (by decide)
  have h3 := powerReturn_fire_window.2 63 [] "1.1"
    ⟨none, some "01:00", none, none, some "11.10.2026", []⟩ true "01:00" 60
    (by decide) (by decide)
  have h4 := powerReturn_fire_window.2 59 [] "1.1"
    ⟨none, some "01:00", none, none, some "11.10.2026", []⟩ true "01:00" 60
    (by decide) (by decide)
  refine ⟨h2.mpr ⟨by decide, by decide, rfl⟩, ?_, ?_⟩
  · by_contra hc
    exact absurd ((h3.mp hc).1) (by decide)
  · by_contra hc
    exact absurd ((h4.mp hc).1) (by decide)


/-- **C10 (amended).** Total, silent skipping of times `parseTimeToMinutes`
rejects: a period whose extracted start time (upcoming cycle) or end time
(power-return cycle) is absent, or parses to `null` (wrong number of
colon-separated parts, a non-numeric component, or hour/minute out of
range), is skipped — the notified set is unchanged, nothing is sent — and a
skipping check leaves the rest of the trace unaffected.  (The claim's
stronger reading — that *every* string that is not well-formed `"HH:MM"`
parses to `null` — fails: an empty component coerces to `0`, see the
counterexample.) -/
theorem unparseable_time_skipped :
    (∀ (timers : List Int) (cur : Int) (s : List String) (queue : String) (p : Period)
       (ok : Bool),
       (extractStartTime p = none ∨
         (∃ t, extractStartTime p = some t ∧ parseTimeToMinutes (some t) = none)) →
       upcomingStep timers cur s queue p ok = (s, [])) ∧
    (∀ (cur : Int) (s : List String) (queue : String) (p : Period) (ok : Bool),
       (extractEndTime p = none ∨
         (∃ t, extractEndTime p = some t ∧ parseTimeToMinutes (some t) = none)) →
       powerReturnStep cur s queue p ok = (s, [])) ∧
    (∀ (s : List String) (c : Check) (cs : List Check),
       runCheck s c = (s, []) → runTrace s (c :: cs) = runTrace s cs) := by
  refine ⟨?_, ?_, ?_⟩
  · intro timers cur s queue p ok h
    unfold upcomingStep
    rcases h with h | ⟨t, ht, hp⟩
    · rw [h]
    · rw [ht]
      simp [hp]
  · intro cur s queue p ok h
    unfold powerReturnStep
    rcases h with h | ⟨t, ht, hp⟩
    · rw [h]
    · rw [ht]
      simp [hp]
  · intro s c cs h
    simp [runTrace, h]

/-- Witness for C10: a period whose `from` field is `"ab:cd"` — non-numeric
components, `parseTimeToMinutes` gives `null` — is skipped by both cycles,
and the surrounding trace continues unchanged. -/
theorem unparseable_time_skipped_witness :
    upcomingStep [5, 10, 15, 30] 600 [] "1.1"
      ⟨some "ab:cd", some "ab:cd", none, none, some "11.10.2026", []⟩ true = ([], []) ∧
    powerReturnStep 600 [] "1.1"
      ⟨some "ab:cd", some "ab:cd", none, none, some "11.10.2026", []⟩ true = ([], []) :=
  ⟨unparseable_time_skipped.1 [5, 10, 15, 30] 600 [] "1.1" _ true
     (Or.inr ⟨"ab:cd", by decide, by decide⟩),
   unparseable_time_skipped.2.1 600 [] "1.1" _ true
     (Or.inr ⟨"ab:cd", by decide, by decide⟩)⟩

/-- Counterexample for C10 as stated: `"10:"` is not a well-formed `"HH:MM"`
string, yet `parseTimeToMinutes` returns 600 rather than `null` (JavaScript
`Number('')` is `0`), and the upcoming-outage cycle does not skip such a
period — at current time `09:50` with a 10-minute timer it sends a
notification. -/
theorem unparseable_time_skipped_cex :
    extractStartTime ⟨some "10:", none, none, none, some "11.10.2026", []⟩ = some "10:" ∧
    wellFormedHHMM "10:" = false ∧
    parseTimeToMinutes (some "10:") = some 600 ∧
    (upcomingStep [5, 10, 15, 30] 590 [] "1.1"
       ⟨some "10:", none, none, none, some "11.10.2026", []⟩ true).2 ≠ [] := by
  refine ⟨by decide, by decide, by decide, by decide⟩

lemma processQueueSchedule_noFutureDays (today : Date3) (hour minute now : Nat) (q : String)
    (s : Sched) (cache : Option CacheEntry)
    (hfail : filterFutureDays today s = Sched.arr []) :
    processQueueSchedule today hour minute now q (some s) cache =
      ({ queue := q, error := some "No future days" }, cache) := by
  unfold processQueueSchedule
  simp [hfail]

lemma processQueueSchedule_unchanged (today : Date3) (hour minute now : Nat) (q : String)
    (s raw : Sched) (ce : CacheEntry)
    (hraw : ce.rawSchedule = some raw)
    (hne : filterFutureDays today s ≠ Sched.arr [])
    (heq : hashSchedule (extractOutageDataOnly (filterFutureDays today raw)) =
           hashSchedule (extractOutageDataOnly (filterFutureDays today s))) :
    processQueueSchedule today hour minute now q (some s) (some ce) =
      ({ queue := q, schedule := some s,
         hash := some (hashSchedule (extractOutageDataOnly (filterFutureDays today s))),
         changed := false },
       some { hash := some (hashSchedule (extractOutageDataOnly (filterFutureDays today s))),
              rawSchedule := some s, updatedAt := now }) := by
  unfold processQueueSchedule
  simp [hraw, hne, heq]

lemma processQueueSchedule_firstSeen (today : Date3) (hour minute now : Nat) (q : String)
    (s : Sched)
    (hne : filterFutureDays today s ≠ Sched.arr []) :
    processQueueSchedule today hour minute now q (some s) none =
      ({ queue := q, schedule := some s,
         hash := some (hashSchedule (extractOutageDataOnly (filterFutureDays today s))),
         changed := false, isFirstTime := true },
       some { hash := some (hashSchedule (extractOutageDataOnly (filterFutureDays today s))),
              rawSchedule := some s, updatedAt := now }) := by
  unfold processQueueSchedule
  simp [hne]

lemma processQueueSchedule_queue (today : Date3) (hour minute now : Nat) (q : String)
    (fetched : Option Sched) (cache : Option CacheEntry) :
    (processQueueSchedule today hour minute now q fetched cache).1.queue = q := by
  unfold processQueueSchedule
  cases fetched with
  | none => rfl
  | some s =>
    dsimp only
    repeat first | rfl | split

lemma processQueueSchedule_changed_midnight (today : Date3) (minute now : Nat) (q : String)
    (s raw : Sched) (ce : CacheEntry)
    (hraw : ce.rawSchedule = some raw)
    (hne : filterFutureDays today s ≠ Sched.arr [])
    (hdiff : hashSchedule (extractOutageDataOnly (filterFutureDays today raw)) ≠
             hashSchedule (extractOutageDataOnly (filterFutureDays today s)))
    (hm : minute < 20) :
    processQueueSchedule today 0 minute now q (some s) (some ce) =
      ({ queue := q, schedule := some s,
         hash := some (hashSchedule (extractOutageDataOnly (filterFutureDays today s))),
         changed := false },
       some { hash := some (hashSchedule (extractOutageDataOnly (filterFutureDays today s))),
              rawSchedule := some s, updatedAt := now }) := by
  unfold processQueueSchedule
  simp [hraw, hne, hdiff, hm]

lemma processQueueSchedule_changed_normal (today : Date3) (hour minute now : Nat) (q : String)
    (s raw : Sched) (ce : CacheEntry)
    (hraw : ce.rawSchedule = some raw)
    (hne : filterFutureDays today s ≠ Sched.arr [])
    (hdiff : hashSchedule (extractOutageDataOnly (filterFutureDays today raw)) ≠
             hashSchedule (extractOutageDataOnly (filterFutureDays today s)))
    (hnm : hour = 0 → 20 ≤ minute) :
    processQueueSchedule today hour minute now q (some s) (some ce) =
      ({ queue := q, schedule := some s,
         hash := some (hashSchedule (extractOutageDataOnly (filterFutureDays today s))),
         changed := true },
       some { hash := some (hashSchedule (extractOutageDataOnly (filterFutureDays today s))),
              rawSchedule := some s, updatedAt := now }) := by
  have hw : ¬(hour = 0 ∧ minute < 20) := by
    rintro ⟨h0, hlt⟩
    exact absurd hlt (Nat.not_lt.mpr (hnm h0))
  unfold processQueueSchedule
  simp [hraw, hne, hdiff, hw]

/-- **C2.** Date-rollover stability: with an existing cache, the detector
recomputes the old hash from the cached `rawSchedule` at the current date,
so a fresh fetch that differs from the cached schedule only by one day that
has fallen out of the today-or-future window is classified unchanged and
contributes no change notification. -/
theorem dateRollover_unchanged (today : Date3) (hour minute now : Nat) (q : String)
    (A B : List Day) (d : Day) (ce : CacheEntry)
    (hraw : ce.rawSchedule = some (Sched.arr (A ++ d :: B)))
    (hdrop : dayKeep today d = false)
    (hne : filterFutureDays today (Sched.arr (A ++ B)) ≠ Sched.arr []) :
    (processQueueSchedule today hour minute now q (some (Sched.arr (A ++ B)))
       (some ce)).1.changed = false ∧
    (processQueueSchedule today hour minute now q (some (Sched.arr (A ++ B)))
       (some ce)).1.error = none ∧
    getChangedQueues [(processQueueSchedule today hour minute now q (some (Sched.arr (A ++ B)))
       (some ce)).1] = [] := by
  have hfilter : filterFutureDays today (Sched.arr (A ++ d :: B)) =
                 filterFutureDays today (Sched.arr (A ++ B)) := by
    simp [filterFutureDays, List.filter_append, List.filter_cons, hdrop]
  have h := processQueueSchedule_unchanged today hour minute now q (Sched.arr (A ++ B))
    (Sched.arr (A ++ d :: B)) ce hraw hne (by rw [hfilter])
  rw [h]
  refine ⟨rfl, rfl, ?_⟩
  simp [getChangedQueues]

/-- Witness for C2: cached raw schedule `[Oct 10, Oct 12]`, fresh fetch
`[Oct 12]` on Oct 11 — the Oct 10 day has dropped out of the window; the
cycle reports no change. -/
theorem dateRollover_unchanged_witness :
    (processQueueSchedule ⟨2026, 10, 11⟩ 9 0 1 "1.1"
       (some (Sched.arr ([] ++ [⟨some "12.10.2026",
          some [("1.1", PeriodsVal.arr [⟨some "14:00", some "18:00", none, some 1, none, []⟩])],
          []⟩])))
       (some ⟨none, some (Sched.arr ([] ++ ⟨some "10.10.2026",
          some [("1.1", PeriodsVal.arr [⟨some "14:00", some "18:00", none, some 1, none, []⟩])],
          []⟩ :: [⟨some "12.10.2026",
          some [("1.1", PeriodsVal.arr [⟨some "14:00", some "18:00", none, some 1, none, []⟩])],
          []⟩])), 0⟩)).1.changed = false :=
  (dateRollover_unchanged ⟨2026, 10, 11⟩ 9 0 1 "1.1" []
    [⟨some "12.10.2026",
      some [("1.1", PeriodsVal.arr [⟨some "14:00", some "18:00", none, some 1, none, []⟩])], []⟩]
    ⟨some "10.10.2026",
      some [("1.1", PeriodsVal.arr [⟨some "14:00", some "18:00", none, some 1, none, []⟩])], []⟩
    _ rfl (by decide) (by decide)).1

/-- **C3.** Midnight suppression: with an existing cache whose recomputed
hash differs from the new hash, a detection in the first 20 minutes after
local midnight is not reported as changed (no notification) although the
cache is still updated with the new hash and raw data; at 00:20 or later
(any hour, any minute with `hour = 0 → minute ≥ 20`) the same difference is
reported as changed. -/
theorem midnight_suppression (today : Date3) (now : Nat) (q : String)
    (s raw : Sched) (ce : CacheEntry)
    (hraw : ce.rawSchedule = some raw)
    (hne : filterFutureDays today s ≠ Sched.arr [])
    (hdiff : hashSchedule (extractOutageDataOnly (filterFutureDays today raw)) ≠
             hashSchedule (extractOutageDataOnly (filterFutureDays today s))) :
    (∀ minute, minute < 20 →
       (processQueueSchedule today 0 minute now q (some s) (some ce)).1.changed = false ∧
       getChangedQueues [(processQueueSchedule today 0 minute now q (some s) (some ce)).1]
         = [] ∧
       (processQueueSchedule today 0 minute now q (some s) (some ce)).2 =
         some { hash := some (hashSchedule (extractOutageDataOnly (filterFutureDays today s))),
                rawSchedule := some s, updatedAt := now }) ∧
    (∀ hour minute, (hour = 0 → 20 ≤ minute) →
       (processQueueSchedule today hour minute now q (some s) (some ce)).1.changed = true ∧
       (processQueueSchedule today hour minute now q (some s) (some ce)).1.isFirstTime
         = false ∧
       getChangedQueues [(processQueueSchedule today hour minute now q (some s) (some ce)).1]
         = [q] ∧
       (processQueueSchedule today hour minute now q (some s) (some ce)).2 =
         some { hash := some (hashSchedule (extractOutageDataOnly (filterFutureDays today s))),
                rawSchedule := some s, updatedAt := now }) := by
  constructor
  · intro minute hm
    have h := processQueueSchedule_changed_midnight today minute now q s raw ce hraw hne hdiff hm
    rw [h]
    exact ⟨rfl, by simp [getChangedQueues], rfl⟩
  · intro hour minute hnm
    have h := processQueueSchedule_changed_normal today hour minute now q s raw ce hraw hne
      hdiff hnm
    rw [h]
    exact ⟨rfl, rfl, by simp [getChangedQueues], rfl⟩

/-- Witness for C3: a genuine content change (start moves 14:00 → 15:00)
detected at 00:05 is suppressed, the same change at 00:25 and at 09:00 is
reported as changed. -/
theorem midnight_suppression_witness :
    (processQueueSchedule ⟨2026, 10, 11⟩ 0 5 1 "1.1"
       (some (Sched.arr [⟨some "12.10.2026",
          some [("1.1", PeriodsVal.arr [⟨some "15:00", some "18:00", none, some 1, none, []⟩])],
          []⟩]))
       (some ⟨none, some (Sched.arr [⟨some "12.10.2026",
          some [("1.1", PeriodsVal.arr [⟨some "14:00", some "18:00", none, some 1, none, []⟩])],
          []⟩]), 0⟩)).1.changed = false ∧
    (processQueueSchedule ⟨2026, 10, 11⟩ 0 25 1 "1.1"
       (some (Sched.arr [⟨some "12.10.2026",
          some [("1.1", PeriodsVal.arr [⟨some "15:00", some "18:00", none, some 1, none, []⟩])],
          []⟩]))
       (some ⟨none, some (Sched.arr [⟨some "12.10.2026",
          some [("1.1", PeriodsVal.arr [⟨some "14:00", some "18:00", none, some 1, none, []⟩])],
          []⟩]), 0⟩)).1.changed = true ∧
    (processQueueSchedule ⟨2026, 10, 11⟩ 9 0 1 "1.1"
       (some (Sched.arr [⟨some "12.10.2026",
          some [("1.1", PeriodsVal.arr [⟨some "15:00", some "18:00", none, some 1, none, []⟩])],
          []⟩]))
       (some ⟨none, some (Sched.arr [⟨some "12.10.2026",
          some [("1.1", PeriodsVal.arr [⟨some "14:00", some "18:00", none, some 1, none, []⟩])],
          []⟩]), 0⟩)).1.changed = true := by
  have h := midnight_suppression ⟨2026, 10, 11⟩ 1 "1.1"
    (Sched.arr [⟨some "12.10.2026",
       some [("1.1", PeriodsVal.arr [⟨some "15:00", some "18:00", none, some 1, none, []⟩])],
       []⟩])
    (Sched.arr [⟨some "12.10.2026",
       some [("1.1", PeriodsVal.arr [⟨some "14:00", some "18:00", none, some 1, none, []⟩])],
       []⟩])
    ⟨none, some (Sched.arr [⟨some "12.10.2026",
       some [("1.1", PeriodsVal.arr [⟨some "14:00", some "18:00", none, some 1, none, []⟩])],
       []⟩]), 0⟩
    rfl (by decide) (by decide)
  exact ⟨(h.1 5 (by decide)).1, (h.2 0 25 (fun _ => by decide)).1,
         (h.2 9 0 (fun hc => absurd hc (by decide))).1⟩

/-- **C6.** First-seen never notifies: with no previous cache entry, a
successful fetch (passing extraction) stores the new cache with the new
hash and raw schedule, marks the result first-time and not changed, and the
changed-queue set used for subscriber notifications excludes it —
regardless of the fetched content and of the time of day. -/
theorem firstSeen_never_notifies (today : Date3) (hour minute now : Nat) (q : String)
    (s : Sched)
    (hne : filterFutureDays today s ≠ Sched.arr []) :
    processQueueSchedule today hour minute now q (some s) none =
      ({ queue := q, schedule := some s,
         hash := some (hashSchedule (extractOutageDataOnly (filterFutureDays today s))),
         changed := false, isFirstTime := true },
       some { hash := some (hashSchedule (extractOutageDataOnly (filterFutureDays today s))),
              rawSchedule := some s, updatedAt := now }) ∧
    getChangedQueues [(processQueueSchedule today hour minute now q (some s) none).1] = [] := by
  have h := processQueueSchedule_firstSeen today hour minute now q s hne
  exact ⟨h, by rw [h]; simp [getChangedQueues]⟩

/-- Witness for C6: first fetch for a queue with no cache stores the cache
and produces no changed-queue entry. -/
theorem firstSeen_never_notifies_witness :
    getChangedQueues [(processQueueSchedule ⟨2026, 10, 11⟩ 9 0 1 "1.1"
      (some (Sched.arr [⟨some "12.10.2026",
         some [("1.1", PeriodsVal.arr [⟨some "14:00", some "18:00", none, some 1, none, []⟩])],
         []⟩])) none).1] = [] :=
  (firstSeen_never_notifies ⟨2026, 10, 11⟩ 9 0 1 "1.1"
    (Sched.arr [⟨some "12.10.2026",
       some [("1.1", PeriodsVal.arr [⟨some "14:00", some "18:00", none, some 1, none, []⟩])],
       []⟩]) (by decide)).2

/-- **C8 (amended).** Unchanged frame: when the recomputed old hash equals
the new hash the cycle refreshes the cache's `rawSchedule` and `updatedAt`
*and overwrites the stored `hash` field with the newly computed hash* —
which equals the recomputed old hash but need not equal the previously
stored digest (it changes exactly when the stored digest was stale, e.g.
after a date rollover); the result is not marked changed. -/
theorem unchanged_refreshes_cache (today : Date3) (hour minute now : Nat) (q : String)
    (s raw : Sched) (ce : CacheEntry)
    (hraw : ce.rawSchedule = some raw)
    (hne : filterFutureDays today s ≠ Sched.arr [])
    (heq : hashSchedule (extractOutageDataOnly (filterFutureDays today raw)) =
           hashSchedule (extractOutageDataOnly (filterFutureDays today s))) :
    (processQueueSchedule today hour minute now q (some s) (some ce)).1.changed = false ∧
    (processQueueSchedule today hour minute now q (some s) (some ce)).2 =
      some { hash := some (hashSchedule (extractOutageDataOnly (filterFutureDays today s))),
             rawSchedule := some s, updatedAt := now } := by
  have h := processQueueSchedule_unchanged today hour minute now q s raw ce hraw hne heq
  rw [h]
  exact ⟨rfl, rfl⟩

/-- Witness for C8 (amended): an identical refetch refreshes the cache entry
(raw schedule and timestamp) and rewrites the hash field. -/
theorem unchanged_refreshes_cache_witness :
    (processQueueSchedule ⟨2026, 10, 11⟩ 9 0 7 "1.1"
       (some (Sched.arr [⟨some "12.10.2026",
          some [("1.1", PeriodsVal.arr [⟨some "14:00", some "18:00", none, some 1, none, []⟩])],
          []⟩]))
       (some ⟨none, some (Sched.arr [⟨some "12.10.2026",
          some [("1.1", PeriodsVal.arr [⟨some "14:00", some "18:00", none, some 1, none, []⟩])],
          []⟩]), 0⟩)).1.changed = false :=
  (unchanged_refreshes_cache ⟨2026, 10, 11⟩ 9 0 7 "1.1"
    (Sched.arr [⟨some "12.10.2026",
       some [("1.1", PeriodsVal.arr [⟨some "14:00", some "18:00", none, some 1, none, []⟩])],
       []⟩])
    (Sched.arr [⟨some "12.10.2026",
       some [("1.1", PeriodsVal.arr [⟨some "14:00", some "18:00", none, some 1, none, []⟩])],
       []⟩])
    _ rfl (by decide) rfl).1

/-- Counterexample for C8 as stated: cached raw `[Oct 10, Oct 12]` whose
stored hash was computed when Oct 10 was still in the window; on Oct 11 a
fresh `[Oct 12]` recomputes to the same hash (UNCHANGED branch taken,
`changed = false`), yet the stored hash value after the update differs from
the value stored before it. -/
theorem unchanged_refreshes_cache_cex :
    (processQueueSchedule ⟨2026, 10, 11⟩ 9 0 1 "1.1"
       (some (Sched.arr [⟨some "12.10.2026",
          some [("1.1", PeriodsVal.arr [⟨some "14:00", some "18:00", none, some 1, none, []⟩])],
          []⟩]))
       (some ⟨some (hashSchedule (extractOutageDataOnly (Sched.arr
           [⟨some "10.10.2026",
             some [("1.1", PeriodsVal.arr [⟨some "14:00", some "18:00", none, some 1, none, []⟩])],
             []⟩,
            ⟨some "12.10.2026",
             some [("1.1", PeriodsVal.arr [⟨some "14:00", some "18:00", none, some 1, none, []⟩])],
             []⟩]))),
          some (Sched.arr
           [⟨some "10.10.2026",
             some [("1.1", PeriodsVal.arr [⟨some "14:00", some "18:00", none, some 1, none, []⟩])],
             []⟩,
            ⟨some "12.10.2026",
             some [("1.1", PeriodsVal.arr [⟨some "14:00", some "18:00", none, some 1, none, []⟩])],
             []⟩]), 0⟩)).1.changed = false ∧
    ((processQueueSchedule ⟨2026, 10, 11⟩ 9 0 1 "1.1"
       (some (Sched.arr [⟨some "12.10.2026",
          some [("1.1", PeriodsVal.arr [⟨some "14:00", some "18:00", none, some 1, none, []⟩])],
          []⟩]))
       (some ⟨some (hashSchedule (extractOutageDataOnly (Sched.arr
           [⟨some "10.10.2026",
             some [("1.1", PeriodsVal.arr [⟨some "14:00", some "18:00", none, some 1, none, []⟩])],
             []⟩,
            ⟨some "12.10.2026",
             some [("1.1", PeriodsVal.arr [⟨some "14:00", some "18:00", none, some 1, none, []⟩])],
             []⟩]))),
          some (Sched.arr
           [⟨some "10.10.2026",
             some [("1.1", PeriodsVal.arr [⟨some "14:00", some "18:00", none, some 1, none, []⟩])],
             []⟩,
            ⟨some "12.10.2026",
             some [("1.1", PeriodsVal.arr [⟨some "14:00", some "18:00", none, some 1, none, []⟩])],
             []⟩]), 0⟩)).2.bind CacheEntry.hash) ≠
      some (hashSchedule (extractOutageDataOnly (Sched.arr
           [⟨some "10.10.2026",
             some [("1.1", PeriodsVal.arr [⟨some "14:00", some "18:00", none, some 1, none, []⟩])],
             []⟩,
            ⟨some "12.10.2026",
             some [("1.1", PeriodsVal.arr [⟨some "14:00", some "18:00", none, some 1, none, []⟩])],
             []⟩]))) := by
  refine ⟨by decide, by decide⟩

/-- **C9.** Extraction-failure atomicity and isolation: when the fetch for a
queue succeeds but the date filter removes every day from a non-empty
schedule, that queue's result carries the error `"No future days"` —
distinct from the fetch-failure signal `"Failed to fetch"` — its cache is
left completely untouched, and every queue of the cycle still gets
processed (one result per queue). -/
theorem extraction_failure_isolated (today : Date3) (hour minute now : Nat)
    (fetch : String → Option Sched) (queues : List String)
    (caches : String → Option CacheEntry) (q : String) (l : List Day)
    (_hq : q ∈ queues) (hf : fetch q = some (Sched.arr l)) (_hne : l ≠ [])
    (hfail : List.filter (dayKeep today) l = []) :
    ((processMultipleQueues today hour minute now fetch queues caches).1.length
       = queues.length) ∧
    ((processMultipleQueues today hour minute now fetch queues caches).2 q = caches q) ∧
    (∀ r ∈ (processMultipleQueues today hour minute now fetch queues caches).1,
       r.queue = q →
       r.error = some "No future days" ∧ r.error ≠ some "Failed to fetch" ∧
       r.changed = false ∧ r.isFirstTime = false) := by
  have hstep : ∀ cache, processQueueSchedule today hour minute now q (fetch q) cache =
      ({ queue := q, error := some "No future days" }, cache) := by
    intro cache
    rw [hf]
    exact processQueueSchedule_noFutureDays today hour minute now q _ cache
      (by simp [filterFutureDays, hfail])
  clear _hq hf _hne hfail
  induction queues generalizing caches with
  | nil =>
    refine ⟨rfl, rfl, ?_⟩
    intro r hr
    cases hr
  | cons q0 rest ih =>
    by_cases hq0 : q0 = q
    · subst hq0
      simp only [processMultipleQueues, hstep]
      obtain ⟨ih1, ih2, ih3⟩ := ih (fun q' => if q' = q0 then caches q0 else caches q')
      refine ⟨?_, ?_, ?_⟩
      · simpa using ih1
      · simpa using ih2
      · intro r hr hrq
        rcases List.mem_cons.mp hr with hr | hr
        · subst hr
          refine ⟨rfl, ?_, rfl, rfl⟩
          simp
        · exact ih3 r hr hrq
    · simp only [processMultipleQueues]
      obtain ⟨ih1, ih2, ih3⟩ := ih (fun q' => if q' = q0 then
        (processQueueSchedule today hour minute now q0 (fetch q0) (caches q0)).2
        else caches q')
      refine ⟨?_, ?_, ?_⟩
      · simpa using ih1
      · rw [ih2, if_neg (fun h : q = q0 => hq0 h.symm)]
      · intro r hr hrq
        rcases List.mem_cons.mp hr with hr | hr
        · subst hr
          exact absurd
            ((processQueueSchedule_queue today hour minute now q0 (fetch q0)
               (caches q0)).symm.trans hrq) hq0
        · exact ih3 r hr hrq

/-- Witness for C9: queue `"1.1"` fetches a schedule whose only day is in
the past (all days filtered out); both queues of the cycle still produce a
result, `"1.1"`'s cache stays absent, and its result carries the
extraction-failure error. -/
theorem extraction_failure_isolated_witness :
    ((processMultipleQueues ⟨2026, 10, 11⟩ 9 0 1
        (fun q => if q = "1.1" then
           some (Sched.arr [⟨some "10.10.2026",
             some [("1.1", PeriodsVal.arr [⟨some "14:00", some "18:00", none, some 1, none, []⟩])],
             []⟩])
         else none)
        ["1.1", "2.1"] (fun _ => none)).1.length = 2) ∧
    ((processMultipleQueues ⟨2026, 10, 11⟩ 9 0 1
        (fun q => if q = "1.1" then
           some (Sched.arr [⟨some "10.10.2026",
             some [("1.1", PeriodsVal.arr [⟨some "14:00", some "18:00", none, some 1, none, []⟩])],
             []⟩])
         else none)
        ["1.1", "2.1"] (fun _ => none)).2 "1.1" = none) := by
  have h := extraction_failure_isolated ⟨2026, 10, 11⟩ 9 0 1
    (fun q => if q = "1.1" then
       some (Sched.arr [⟨some "10.10.2026",
         some [("1.1", PeriodsVal.arr [⟨some "14:00", some "18:00", none, some 1, none, []⟩])],
         []⟩])
     else none)
    ["1.1", "2.1"] (fun _ => none) "1.1"
    [⟨some "10.10.2026",
      some [("1.1", PeriodsVal.arr [⟨some "14:00", some "18:00", none, some 1, none, []⟩])], []⟩]
    (by decide) (by decide) (by decide) (by decide)
  exact ⟨h.1, h.2.1⟩


lemma stripPeriod_eq_of_same (p r : Period) (h : samePeriodData p r = true) :
    stripPeriod p = stripPeriod r := by
  simp only [samePeriodData, Bool.and_eq_true, decide_eq_true_eq] at h
  obtain ⟨h1, h2, h3, h4⟩ := h
  unfold stripPeriod
  rw [h1, h2, h3, h4]

lemma stripMap_eq_of_same : ∀ ps rs : List Period, samePeriodList ps rs = true →
    ps.map stripPeriod = rs.map stripPeriod
  | [], [], _ => rfl
  | p :: ps, r :: rs, h => by
    simp only [samePeriodList, Bool.and_eq_true] at h
    simp only [List.map_cons, stripPeriod_eq_of_same p r h.1,
      stripMap_eq_of_same ps rs h.2]
  | [], _ :: _, h => by simp [samePeriodList] at h
  | _ :: _, [], h => by simp [samePeriodList] at h

lemma stripPVal_eq_of_same (v w : PeriodsVal) (h : samePVal v w = true) :
    stripPVal v = stripPVal w := by
  cases v with
  | arr ps =>
    cases w with
    | arr rs =>
      simp only [samePVal] at h
      exact congrArg PeriodsVal.arr (stripMap_eq_of_same _ _ h)
    | other b => simp [samePVal] at h
  | other a =>
    cases w with
    | arr rs => simp [samePVal] at h
    | other b =>
      simp only [samePVal, decide_eq_true_eq] at h
      rw [h]

lemma stripQueues_eq_of_same : ∀ qs rs : List (String × PeriodsVal),
    sameQueueList qs rs = true →
    qs.map (fun kv => (kv.1, stripPVal kv.2)) = rs.map (fun kv => (kv.1, stripPVal kv.2))
  | [], [], _ => rfl
  | kv1 :: t1, kv2 :: t2, h => by
    simp only [sameQueueList, Bool.and_eq_true, decide_eq_true_eq] at h
    simp only [List.map_cons, h.1.1, stripPVal_eq_of_same _ _ h.1.2,
      stripQueues_eq_of_same t1 t2 h.2]
  | [], _ :: _, h => by simp [sameQueueList] at h
  | _ :: _, [], h => by simp [sameQueueList] at h

lemma cleanDay_eq_of_same (d e : Day) (hs : sameDayData d e = true)
    (hwf : dayWellFormed d = true) : cleanDay d = cleanDay e := by
  simp only [sameDayData, Bool.and_eq_true, decide_eq_true_eq] at hs
  obtain ⟨hdate, hq⟩ := hs
  simp only [dayWellFormed, Bool.and_eq_true] at hwf
  obtain ⟨htruthy, hqsome⟩ := hwf
  cases hdq : d.queues with
  | none => rw [hdq] at hqsome; cases hqsome
  | some qs =>
    cases heq : e.queues with
    | none => rw [hdq, heq] at hq; cases hq
    | some rs =>
      rw [hdq, heq] at hq
      unfold cleanDay
      rw [if_neg, if_neg]
      · rw [hdq, heq]
        simp [hdate, stripQueues_eq_of_same qs rs hq]
      · rw [heq, ← hdate]
        simp [htruthy]
      · rw [hdq]
        simp [htruthy]

lemma dayKeep_eq_of_same (today : Date3) (d e : Day) (h : d.eventDate = e.eventDate) :
    dayKeep today d = dayKeep today e := by
  unfold dayKeep
  rw [h]

lemma canon_eq_of_sameDayList (today : Date3) : ∀ l1 l2 : List Day,
    sameDayList l1 l2 = true → l1.all dayWellFormed = true →
    (l1.filter (dayKeep today)).map cleanDay = (l2.filter (dayKeep today)).map cleanDay
  | [], [], _, _ => rfl
  | d :: ds, e :: es, h, hwf => by
    simp only [sameDayList, Bool.and_eq_true] at h
    simp only [List.all_cons, Bool.and_eq_true] at hwf
    have hdate : d.eventDate = e.eventDate := by
      have := h.1
      simp only [sameDayData, Bool.and_eq_true, decide_eq_true_eq] at this
      exact this.1
    have hk := dayKeep_eq_of_same today d e hdate
    by_cases hkeep : dayKeep today d = true
    · rw [List.filter_cons_of_pos hkeep, List.filter_cons_of_pos (hk ▸ hkeep)]
      simp only [List.map_cons, cleanDay_eq_of_same d e h.1 hwf.1,
        canon_eq_of_sameDayList today ds es h.2 hwf.2]
    · have hkeep' : dayKeep today d = false := by
        cases hc : dayKeep today d
        · rfl
        · exact absurd hc hkeep
      rw [List.filter_cons_of_neg (by simp [hkeep']),
        List.filter_cons_of_neg (by simp [hk ▸ hkeep'])]
      exact canon_eq_of_sameDayList today ds es h.2 hwf.2
  | [], _ :: _, h, _ => by simp [sameDayList] at h
  | _ :: _, [], h, _ => by simp [sameDayList] at h

/-- **C7 (amended).** Metadata-insensitivity: two schedules that differ only
in fields outside `eventDate` and the per-period
`from`/`to`/`shutdownHours`/`status` (e.g. only in the display-only
`scheduleApprovedSince` marker) canonicalize — date filter, field
stripping, hashing — to the identical hash, *provided every day carries a
truthy `eventDate` and a `queues` field*; a day missing either is copied
verbatim by the stripping step, so metadata differences on such a day do
reach the hash (see the counterexample). -/
theorem metadata_insensitivity (today : Date3) (s1 s2 : Sched)
    (hsame : sameSchedData s1 s2 = true)
    (hwf : schedWellFormed s1 = true) :
    hashSchedule (extractOutageDataOnly (filterFutureDays today s1)) =
    hashSchedule (extractOutageDataOnly (filterFutureDays today s2)) := by
  cases s1 with
  | arr l1 =>
    cases s2 with
    | arr l2 =>
      simp only [sameSchedData] at hsame
      simp only [schedWellFormed] at hwf
      unfold hashSchedule filterFutureDays extractOutageDataOnly
      exact congrArg Sched.arr (canon_eq_of_sameDayList today l1 l2 hsame hwf)
    | other b => simp [sameSchedData] at hsame
  | other a =>
    cases s2 with
    | arr l2 => simp [sameSchedData] at hsame
    | other b =>
      simp only [sameSchedData, decide_eq_true_eq] at hsame
      rw [hsame]

/-- Witness for C7 (amended): two well-formed one-day schedules differing
only in the `scheduleApprovedSince` marker and in an extra per-period
metadata field hash identically. -/
theorem metadata_insensitivity_witness :
    hashSchedule (extractOutageDataOnly (filterFutureDays ⟨2026, 10, 11⟩
      (Sched.arr [⟨some "12.10.2026",
        some [("1.1", PeriodsVal.arr [⟨some "14:00", some "18:00", none, some 1, none,
          [("extra", "x")]⟩])],
        [("scheduleApprovedSince", "2026-10-10T20:00")]⟩]))) =
    hashSchedule (extractOutageDataOnly (filterFutureDays ⟨2026, 10, 11⟩
      (Sched.arr [⟨some "12.10.2026",
        some [("1.1", PeriodsVal.arr [⟨some "14:00", some "18:00", none, some 1, none,
          [("extra", "y")]⟩])],
        [("scheduleApprovedSince", "2026-10-11T08:00")]⟩]))) :=
  metadata_insensitivity ⟨2026, 10, 11⟩ _ _ (by decide) (by decide)

/-- Counterexample for C7 as stated: two schedules whose single day lacks an
`eventDate` and differs only in the `scheduleApprovedSince` marker — the
date filter keeps the day, the stripping step copies it verbatim, and the
canonical hashes differ. -/
theorem metadata_insensitivity_cex :
    sameSchedData
      (Sched.arr [⟨none, some [("1.1", PeriodsVal.arr [])], [("scheduleApprovedSince", "A")]⟩])
      (Sched.arr [⟨none, some [("1.1", PeriodsVal.arr [])], [("scheduleApprovedSince", "B")]⟩])
      = true ∧
    hashSchedule (extractOutageDataOnly (filterFutureDays ⟨2026, 10, 11⟩
      (Sched.arr [⟨none, some [("1.1", PeriodsVal.arr [])],
        [("scheduleApprovedSince", "A")]⟩]))) ≠
    hashSchedule (extractOutageDataOnly (filterFutureDays ⟨2026, 10, 11⟩
      (Sched.arr [⟨none, some [("1.1", PeriodsVal.arr [])],
        [("scheduleApprovedSince", "B")]⟩]))) := by
  refine ⟨by decide, by decide⟩

example : parseTimeToMinutes (some "14:30") = some 870 := by decide
example : parseTimeToMinutes (some "24:00") = none := by decide
example : parseTimeToMinutes (some "10:") = some 600 := by decide
example : parseDateString (some "11.10.2026") = some (11, 10, 2026) := by decide
example : isTodayOrFuture ⟨2026, 10, 11⟩ (some "10.10.2026") = false := by decide
example : isTodayOrFuture ⟨2026, 10, 11⟩ (some "11.10.2026") = true := by decide
example : isTodayOrFuture ⟨2026, 10, 11⟩ (some "01.01.2027") = true := by decide
